import Mathlib

set_option maxRecDepth 100000

/-!
Verification development for the Auto_Log_Extractor repository (src/app.py).

The file shallowly embeds the core of `app.py`: the encoding-resilient file
reader, the HTML event-log extractor, the syslog/text extractor, the JSON-line
link-status and equipment-status extractors (including nested-item flattening
and row pagination), and the summary bookkeeping.  Regular-expression matching
is embedded by a small backtracking matcher with Python's leftmost, greedy,
first-success semantics, and the three patterns of `app.py` are transcribed
into its syntax.  Python string helpers (`split`, `strip`, `os.path.basename`)
are embedded directly.
-/

namespace AutoLog

/-! ### Python string helpers -/

/-- Python `str.split(sep)` for a one-character separator: splits at every
occurrence of `sep`; `"".split(sep) = [""]`, and separators at the ends
produce empty fields, exactly as in Python. -/
def pySplitAux (sep : Char) : List Char → List Char → List (List Char)
  | [], acc => [acc.reverse]
  | c :: rest, acc =>
    if c = sep then acc.reverse :: pySplitAux sep rest []
    else pySplitAux sep rest (c :: acc)

/-- Python `s.split(sep)` (single-character separator). -/
def pySplit (sep : Char) (s : String) : List String :=
  (pySplitAux sep s.data []).map String.mk

/-- Whitespace characters stripped by Python `str.strip()` (ASCII range,
which covers every input this program handles). -/
def isPySpace (c : Char) : Bool :=
  c = ' ' || c = '\t' || c = '\n' || c = '\r' || c = '\x0b' || c = '\x0c'

/-- Python `str.strip()`: removes leading and trailing whitespace. -/
def pyStrip (s : String) : String :=
  String.mk (((s.data.dropWhile isPySpace).reverse.dropWhile isPySpace).reverse)

/-- Python `os.path.basename`: the part after the last slash. -/
def pyBasename (s : String) : String :=
  (pySplit '/' s).getLastD s

/-- Lexicographic comparison of character lists by code point, the order
Python uses for `str` comparison (and hence the order
`pandas.sort_values` applies to an object-dtype column of strings). -/
def charsLe : List Char → List Char → Bool
  | [], _ => true
  | _ :: _, [] => false
  | c :: cs, d :: ds =>
    if c.toNat < d.toNat then true
    else if d.toNat < c.toNat then false
    else charsLe cs ds

/-- Python string `<=`: code-point lexicographic. -/
def strLeB (a b : String) : Bool := charsLe a.data b.data

/-- Numeric value of a decimal digit string (what Python `int(s)` returns
on the entry-id fields). -/
def decimalOf (s : String) : Nat :=
  s.data.foldl (fun n c => 10 * n + (c.toNat - 48)) 0

/-! ### Regular-expression engine

Python `re` semantics restricted to the constructs used by `app.py`:
literal characters, character classes (`\d`, `\w`, `\s`, `\S`, `.`,
`[^\n\r]`), concatenation, alternation (leftmost preference), greedy `*`,
`+`, `?` and bounded repetition, and numbered capturing groups.  The matcher
explores alternatives in Python's priority order (greedy first) and returns
the first overall success, which reproduces `re.match` / `re.search` /
`re.findall` behaviour for these patterns. -/

inductive Re where
  | eps : Re
  | ch : Char → Re
  | cls : (Char → Bool) → Re
  | seq : Re → Re → Re
  | alt : Re → Re → Re
  | star : Re → Re
  | opt : Re → Re
  | group : Nat → Re → Re

/-- Concatenation of a list of regular expressions. -/
def rcat (l : List Re) : Re := l.foldr Re.seq Re.eps

/-- Literal string as a regular expression. -/
def rstr (s : String) : Re := rcat (s.data.map Re.ch)

/-- Greedy `+`. -/
def rplus (r : Re) : Re := Re.seq r (Re.star r)

/-- Exactly `n` copies of `r` (Python `{n}`). -/
def rrep : Nat → Re → Re
  | 0, _ => Re.eps
  | n + 1, r => Re.seq r (rrep n r)

/-- Python `\d`. -/
def rdigit : Re := Re.cls Char.isDigit

/-- Python `\w` (ASCII inputs). -/
def rword : Re := Re.cls (fun c => c.isAlphanum || c = '_')

/-- Python `\s` (ASCII inputs). -/
def rspace : Re := Re.cls isPySpace

/-- Python `\S`. -/
def rnonspace : Re := Re.cls (fun c => !isPySpace c)

/-- Python `.` (anything but a newline). -/
def rdot : Re := Re.cls (fun c => c ≠ '\n')

/-- Captured groups: group number paired with the captured characters;
a later entry for the same group number supersedes earlier ones. -/
abbrev Caps := List (Nat × List Char)

/-- Size of a regular expression, used to bound the matcher's fuel. -/
def reSize : Re → Nat
  | .eps => 1
  | .ch _ => 1
  | .cls _ => 1
  | .seq a b => reSize a + reSize b + 1
  | .alt a b => reSize a + reSize b + 1
  | .star a => reSize a + 1
  | .opt a => reSize a + 1
  | .group _ a => reSize a + 1

/-- Backtracking matcher in continuation-passing style.  Alternatives are
tried in Python's priority order (for `alt` the left branch first, for
`star` and `opt` the longer match first), and the first success wins; this
is exactly Python's leftmost-greedy backtracking.  A starred body must
consume input for its iteration to count, matching Python's behaviour on
the patterns used here (none of which star a nullable body). -/
def mRun : Nat → Re → List Char → Caps →
    (List Char → Caps → Option (Caps × List Char)) → Option (Caps × List Char)
  | 0, _, _, _, _ => none
  | fuel + 1, re, s, caps, k =>
    match re with
    | .eps => k s caps
    | .ch c =>
      match s with
      | [] => none
      | x :: rest => if x = c then k rest caps else none
    | .cls p =>
      match s with
      | [] => none
      | x :: rest => if p x then k rest caps else none
    | .seq a b => mRun fuel a s caps (fun s2 caps2 => mRun fuel b s2 caps2 k)
    | .alt a b => (mRun fuel a s caps k).orElse (fun _ => mRun fuel b s caps k)
    | .opt a => (mRun fuel a s caps k).orElse (fun _ => k s caps)
    | .star a =>
      (mRun fuel a s caps (fun s2 caps2 =>
        if s2.length < s.length then mRun fuel (Re.star a) s2 caps2 k
        else none)).orElse (fun _ => k s caps)
    | .group n a =>
      mRun fuel a s caps (fun s2 caps2 =>
        k s2 ((n, s.take (s.length - s2.length)) :: caps2))

/-- Fuel that is ample for every exploration path of the patterns used
here. -/
def mFuel (re : Re) (s : List Char) : Nat := (reSize re + 2) * (s.length + 2)

/-- Attempt a match of `re` at the start of `s` (Python `re.match` at one
position); returns the captures and the unconsumed suffix. -/
def matchAt (re : Re) (s : List Char) : Option (Caps × List Char) :=
  mRun (mFuel re s) re s [] (fun rest caps => some (caps, rest))

/-- Python `re.findall` driver: scan left to right, take the leftmost
match, continue after it (our patterns never match the empty string, and a
zero-width match advances one character, as in Python). -/
def findallGo (re : Re) : Nat → List Char → List Caps
  | 0, _ => []
  | fpos + 1, s =>
    match matchAt re s with
    | some (caps, rest) =>
      if rest.length < s.length then caps :: findallGo re fpos rest
      else
        caps ::
          (match s with
           | [] => []
           | _ :: t => findallGo re fpos t)
    | none =>
      match s with
      | [] => []
      | _ :: t => findallGo re fpos t

/-- Python `re.findall(re, s)`, returning the capture sets of every
non-overlapping match, leftmost-first. -/
def findall (re : Re) (s : String) : List Caps :=
  findallGo re (s.data.length + 1) s.data

/-- Python `re.search(re, s)`: captures of the leftmost match, if any. -/
def researchGo (re : Re) : Nat → List Char → Option Caps
  | 0, _ => none
  | fpos + 1, s =>
    match matchAt re s with
    | some (caps, _) => some caps
    | none =>
      match s with
      | [] => none
      | _ :: t => researchGo re fpos t

/-- Python `re.search(re, s)`. -/
def research (re : Re) (s : String) : Option Caps :=
  researchGo re (s.data.length + 1) s.data

/-- Text of capture group `n`; the empty string when the group did not
participate in the match (Python `findall` renders such groups as `''`). -/
def capStr (n : Nat) (caps : Caps) : String :=
  match caps.find? (fun e => e.1 = n) with
  | some e => String.mk e.2
  | none => ""

/-! ### The three patterns of `app.py`, transcribed node by node -/

/-- Pattern `IP=(\d+\.\d+\.\d+\.\d+)` from `process_html_files` (app.py
line 62). -/
def ipDevicePattern : Re :=
  rcat [rstr "IP=",
        Re.group 1 (rcat [rplus rdigit, Re.ch '.', rplus rdigit, Re.ch '.',
                          rplus rdigit, Re.ch '.', rplus rdigit])]

/-- Pattern `System Name:\s*([^\n\r]*)` from `process_html_files` (app.py
line 66). -/
def systemNamePattern : Re :=
  rcat [rstr "System Name:", Re.star rspace,
        Re.group 1 (Re.star (Re.cls (fun c => c ≠ '\n' && c ≠ '\r')))]

/-- Event pattern of `process_html_files` (app.py line 70):
`<tr><td>(\d+): <font color="#(?:3366FF|606060|009900)">(\d{2}\.\d{2}\.\d{2})\s*(\d{2}:\d{2}:\d{2}):\s*(\S+)\s*(\S+)\s*(\S+)\s*,\s*(\S+)\s*,\s*(\d+)<br>\s*\.+(\S+)`. -/
def htmlEventPattern : Re :=
  rcat [rstr "<tr><td>",
        Re.group 1 (rplus rdigit),
        rstr ": <font color=\"#",
        Re.alt (rstr "3366FF") (Re.alt (rstr "606060") (rstr "009900")),
        rstr "\">",
        Re.group 2 (rcat [rrep 2 rdigit, Re.ch '.', rrep 2 rdigit, Re.ch '.',
                          rrep 2 rdigit]),
        Re.star rspace,
        Re.group 3 (rcat [rrep 2 rdigit, Re.ch ':', rrep 2 rdigit, Re.ch ':',
                          rrep 2 rdigit]),
        Re.ch ':', Re.star rspace,
        Re.group 4 (rplus rnonspace), Re.star rspace,
        Re.group 5 (rplus rnonspace), Re.star rspace,
        Re.group 6 (rplus rnonspace), Re.star rspace,
        Re.ch ',', Re.star rspace,
        Re.group 7 (rplus rnonspace), Re.star rspace,
        Re.ch ',', Re.star rspace,
        Re.group 8 (rplus rdigit),
        rstr "<br>", Re.star rspace,
        rplus (Re.ch '.'),
        Re.group 9 (rplus rnonspace)]

/-- Event pattern of `process_log_files` (app.py line 136):
`\**(\w{2,3})\s+(\d{1,2}) (\d{2}:\d{2}:\d{2}\.\d{3}\s*\S*): %(\S+)-(\d)-(\w+): (.+)\s*(?:\s*-Traceback=(.+))?`. -/
def syslogEventPattern : Re :=
  rcat [Re.star (Re.ch '*'),
        Re.group 1 (Re.seq (rrep 2 rword) (Re.opt rword)),
        rplus rspace,
        Re.group 2 (Re.seq rdigit (Re.opt rdigit)),
        Re.ch ' ',
        Re.group 3 (rcat [rrep 2 rdigit, Re.ch ':', rrep 2 rdigit, Re.ch ':',
                          rrep 2 rdigit, Re.ch '.', rrep 3 rdigit,
                          Re.star rspace, Re.star rnonspace]),
        rstr ": %",
        Re.group 4 (rplus rnonspace), Re.ch '-',
        Re.group 5 rdigit, Re.ch '-',
        Re.group 6 (rplus rword),
        rstr ": ",
        Re.group 7 (rplus rdot),
        Re.star rspace,
        Re.opt (rcat [Re.star rspace, rstr "-Traceback=",
                      Re.group 8 (rplus rdot)])]

/-! ### HTML event-log extractor (`process_html_files`, app.py 39-111) -/

/-- Event tuple captured by `htmlEventPattern`, one per table row. -/
structure EventTuple where
  entryId : String
  date : String
  time : String
  errorType : String
  errorCode : String
  taskName : String
  filename : String
  line : String
  parameter : String
deriving DecidableEq, Repr

/-- Conversion of one `findall` capture set into an `EventTuple`. -/
def evOfCaps (c : Caps) : EventTuple :=
  ⟨capStr 1 c, capStr 2 c, capStr 3 c, capStr 4 c, capStr 5 c, capStr 6 c,
   capStr 7 c, capStr 8 c, capStr 9 c⟩

/-- All events `re.findall(pattern1, html_content)` finds in one HTML file
(app.py line 72). -/
def htmlEvents (content : String) : List EventTuple :=
  (findall htmlEventPattern content).map evOfCaps

/-- Device IP of one HTML file: first match of `ipDevicePattern`, with the
default `"Unknown"` (app.py lines 62-63). -/
def ipDeviceOf (content : String) : String :=
  match research ipDevicePattern content with
  | some caps => capStr 1 caps
  | none => "Unknown"

/-- System name of one HTML file: first match of `systemNamePattern`,
stripped and cut at the first `<` (app.py lines 66-67), default
`"Unknown"`. -/
def systemNameOf (content : String) : String :=
  match research systemNamePattern content with
  | some caps => (pySplit '<' (pyStrip (capStr 1 caps))).headD ""
  | none => "Unknown"

/-- One row of the HTML event worksheet: the per-file IP device and system
name broadcast onto an event tuple (app.py lines 79-82). -/
structure EventRow where
  ipDevice : String
  systemName : String
  ev : EventTuple
deriving DecidableEq, Repr

/-- Comparison used by `df.sort_values(by='Entry ID')` (app.py line 83):
pandas sorts the object-dtype column by Python string comparison, which is
lexicographic on code points. -/
def entryIdLe (a b : EventRow) : Prop := strLeB a.ev.entryId b.ev.entryId = true

instance : DecidableRel entryIdLe := fun a b =>
  inferInstanceAs (Decidable (strLeB a.ev.entryId b.ev.entryId = true))

/-- Rows contributed to the event worksheet by one HTML file: empty when
the pattern finds nothing (app.py lines 74-76), otherwise the sorted rows
(app.py lines 79-87). -/
def htmlFileRows (content : String) : List EventRow :=
  let events := htmlEvents content
  if events.isEmpty then []
  else
    List.insertionSort entryIdLe
      (events.map (fun e => ⟨ipDeviceOf content, systemNameOf content, e⟩))

/-- Summary rows of the whole workbook.  Each constructor is one shape of
list appended to `summary_data` in app.py: per-file HTML entries (line 89),
per-file syslog entries (line 155), and the single per-batch entries of the
link and equipment processors (lines 281 and 433). -/
inductive SummaryEntry where
  | html : Nat → String → String → String → SummaryEntry
  | syslog : Nat → String → String → SummaryEntry
  | batch : Nat → String → SummaryEntry
deriving DecidableEq, Repr

/-- Summary contribution of one HTML file (app.py line 89): skipped when
the pattern finds nothing. -/
def htmlFileSummary (idx : Nat) (path content : String) : List SummaryEntry :=
  if (htmlEvents content).isEmpty then []
  else [.html idx (pyBasename path) (ipDeviceOf content) (systemNameOf content)]

/-- Header row of the `Output_event_log` worksheet (app.py line 52). -/
def htmlHeaderRow : List String :=
  ["IP Device", "System Name", "Entry ID", "Date", "Time", "Error Type",
   "Error Code", "TaskName", "Filename", "Line", "Parameter"]

/-- Rendering of an `EventRow` as one worksheet row (column order of
app.py lines 79-82). -/
def renderEventRow (r : EventRow) : List String :=
  [r.ipDevice, r.systemName, r.ev.entryId, r.ev.date, r.ev.time,
   r.ev.errorType, r.ev.errorCode, r.ev.taskName, r.ev.filename, r.ev.line,
   r.ev.parameter]

/-! ### Syslog/text extractor (`process_log_files`, app.py 113-177) -/

/-- Tuple captured by `syslogEventPattern`, one per `Syslog` row. -/
structure SyslogTuple where
  month : String
  date : String
  timestamp : String
  facility : String
  severity : String
  mnemonic : String
  message : String
  traceback : String
deriving DecidableEq, Repr

/-- Conversion of one capture set into a `SyslogTuple`. -/
def slOfCaps (c : Caps) : SyslogTuple :=
  ⟨capStr 1 c, capStr 2 c, capStr 3 c, capStr 4 c, capStr 5 c, capStr 6 c,
   capStr 7 c, capStr 8 c⟩

/-- All events `re.findall(pattern1, txt_content)` finds in one log file
(app.py line 138). -/
def syslogEvents (content : String) : List SyslogTuple :=
  (findall syslogEventPattern content).map slOfCaps

/-- System name derived from the file name (app.py line 131):
`os.path.basename(file_address).split('.')[0].split('_')[-1]`. -/
def sysNameOfPath (path : String) : String :=
  (pySplit '_' ((pySplit '.' (pyBasename path)).headD "")).getLastD ""

/-- One row of the `Syslog` worksheet: the filename-derived system name
broadcast onto an event tuple (app.py line 147). -/
structure SyslogRow where
  systemName : String
  ev : SyslogTuple
deriving DecidableEq, Repr

/-- Comparison used by `df.sort_values(by='Timestamp')` (app.py line 148):
lexicographic string comparison by code point. -/
def timestampLe (a b : SyslogRow) : Prop := strLeB a.ev.timestamp b.ev.timestamp = true

instance : DecidableRel timestampLe := fun a b =>
  inferInstanceAs (Decidable (strLeB a.ev.timestamp b.ev.timestamp = true))

/-- Rows contributed to the `Syslog` worksheet by one log/text file: empty
when the pattern finds nothing (app.py lines 140-142), otherwise the rows
sorted by timestamp (app.py lines 144-152). -/
def logFileRows (path content : String) : List SyslogRow :=
  let events := syslogEvents content
  if events.isEmpty then []
  else
    List.insertionSort timestampLe
      (events.map (fun e => ⟨sysNameOfPath path, e⟩))

/-- Summary contribution of one log/text file (app.py line 155). -/
def logFileSummary (idx : Nat) (path content : String) : List SummaryEntry :=
  if (syslogEvents content).isEmpty then []
  else [.syslog idx (pyBasename path) (sysNameOfPath path)]

/-- Header row of the `Syslog` worksheet (app.py line 126). -/
def syslogHeaderRow : List String :=
  ["System Name", "Month", "Date", "Timestamp", "Facility", "Severity Level",
   "Mnemonic", "Message Text", "Traceback"]

/-- Rendering of a `SyslogRow` as one worksheet row. -/
def renderSyslogRow (r : SyslogRow) : List String :=
  [r.systemName, r.ev.month, r.ev.date, r.ev.timestamp, r.ev.facility,
   r.ev.severity, r.ev.mnemonic, r.ev.message, r.ev.traceback]

/-! ### Batch driver shared by the HTML and syslog processors

Both `process_html_files` and `process_log_files` loop over
`enumerate(file_addresses, start=1)`, read the file, contribute rows and a
summary entry on success, skip the file on any fault caught by the
per-file `except` clauses, and run `os.remove(file_address)` in a `finally`
block (app.py lines 54-95 and 128-161).  The file store is a list of
`(path, content)` pairs; a path missing from the store makes `open` raise
`FileNotFoundError`, which the per-file `except` catches — but then the
`os.remove` in `finally` raises `FileNotFoundError` on the same absent
path, and nothing catches that: the loop aborts, later files are neither
processed nor deleted, and the exception propagates out of the processor.
A path can be absent exactly when it was never stored or was already
removed by an earlier iteration (a filename listed twice). -/

abbrev TextFS := List (String × String)

/-- Content of a stored file, `none` when the path is absent. -/
def lookupFS (fs : TextFS) (p : String) : Option String :=
  (fs.find? (fun e => e.1 = p)).map (fun e => e.2)

/-- Outcome of one HTML or syslog batch: the accumulated rows, the
accumulated summary entries, the file store afterwards, and whether the
loop completed normally.  `completed = false` records the uncaught
`FileNotFoundError` raised by the `finally` block's `os.remove` on an
absent path, which aborts the batch at that iteration. -/
structure BatchOut (ρ : Type) where
  rows : List ρ
  summary : List SummaryEntry
  fs : TextFS
  completed : Bool

/-- Shared per-batch loop: `fileRows`/`fileSummary` are the per-file
success contributions of the concrete processor.  When the file is stored,
its rows and summary entry are contributed and the `finally` deletes it
(app.py lines 94-95 and 160-161); when the path is absent, the `open`
inside `try` raises `FileNotFoundError` (caught, so no rows and no summary
entry), and then `os.remove` in `finally` raises on the same absent path,
uncaught: the batch aborts with the store unchanged from that point on. -/
def batchGo (fileRows : String → String → List ρ)
    (fileSummary : Nat → String → String → List SummaryEntry) :
    Nat → List String → TextFS → BatchOut ρ
  | _, [], fs => ⟨[], [], fs, true⟩
  | idx, p :: rest, fs =>
    match lookupFS fs p with
    | none => ⟨[], [], fs, false⟩
    | some c =>
      let fs2 := fs.filter (fun e => e.1 ≠ p)
      let out := batchGo fileRows fileSummary (idx + 1) rest fs2
      ⟨fileRows p c ++ out.rows, fileSummary idx p c ++ out.summary,
        out.fs, out.completed⟩

/-- Embedding of `process_html_files` (app.py 39-111): the worksheet (header
row first), the summary entries, the file store after the batch, and the
completion flag. -/
def process_html_files (paths : List String) (fs : TextFS) :
    BatchOut (List String) :=
  let out := batchGo (fun _ c => htmlFileRows c) htmlFileSummary 1 paths fs
  ⟨htmlHeaderRow :: out.rows.map renderEventRow, out.summary, out.fs,
    out.completed⟩

/-- Embedding of `process_log_files` (app.py 113-177), used for both the
`.log` and `.txt` categories. -/
def process_log_files (paths : List String) (fs : TextFS) :
    BatchOut (List String) :=
  let out := batchGo logFileRows logFileSummary 1 paths fs
  ⟨syslogHeaderRow :: out.rows.map renderSyslogRow, out.summary, out.fs,
    out.completed⟩

/-! ### Encoding-resilient reader (`read_file_with_multiple_encodings`,
app.py 16-37) -/

/-- Embedding of `read_file_with_multiple_encodings`: `decode e` is the
outcome of `open(file_path, encoding=e).read()` for the file at hand
(`none` models a `UnicodeDecodeError`).  The loop returns the first
successful decode and falls through to the final `raise` (modelled as
`none`) when every candidate fails. -/
def read_file_with_multiple_encodings (decode : String → Option String)
    (encodings : List String := ["utf-8", "iso-8859-1", "windows-1252"]) :
    Option String :=
  match encodings with
  | [] => none
  | e :: rest =>
    match decode e with
    | some t => some t
    | none => read_file_with_multiple_encodings decode rest

/-! ### JSON values and Python-dict operations

Payloads produced by `json.loads` are objects with insertion-ordered,
duplicate-free keys; an object is embedded as an association list in key
insertion order.  The dict operations below follow Python semantics:
assignment overwrites in place or appends a new key at the end, `pop`
removes the key, `update` assigns every key of the argument in order. -/

inductive JVal where
  | str : String → JVal
  | num : Int → JVal
  | bool : Bool → JVal
  | null : JVal
  | arr : List JVal → JVal
  | obj : List (String × JVal) → JVal

/-- A JSON object: association list in key insertion order. -/
abbrev Json := List (String × JVal)

/-- Python `k in d`. -/
def dictMem (k : String) (d : Json) : Bool :=
  d.any (fun e => e.1 = k)

/-- Python `d.get(k)` / `d[k]` lookup. -/
def dictGet (k : String) (d : Json) : Option JVal :=
  (d.find? (fun e => e.1 = k)).map (fun e => e.2)

/-- Python `d[k] = v`: overwrite in place when the key exists (keys of a
Python dict are unique, so replacing the first occurrence is exact), else
append the new key at the end. -/
def dictSet (d : Json) (k : String) (v : JVal) : Json :=
  match d with
  | [] => [(k, v)]
  | e :: rest => if e.1 = k then (k, v) :: rest else e :: dictSet rest k v

/-- Python `d.pop(k, default)`: the key's value (if any) and the object
without the key. -/
def dictPop (k : String) (d : Json) : Option JVal × Json :=
  (dictGet k d, d.filter (fun e => e.1 ≠ k))

/-- Python `d.update(other)`: assign every key of `other` into `d`, in
order. -/
def dictUpdate (d other : Json) : Json :=
  other.foldl (fun acc e => dictSet acc e.1 e.2) d

mutual

/-- Python `str()` of a decoded JSON value, as used by `flatten_items` for
the nested `equipmentItems` sub-structure (app.py line 330). -/
def jvalRepr : JVal → String
  | .str s => "'" ++ s ++ "'"
  | .num n => toString n
  | .bool true => "True"
  | .bool false => "False"
  | .null => "None"
  | .arr xs => "[" ++ jvalListRepr xs ++ "]"
  | .obj l => "\x7b" ++ jvalFieldsRepr l ++ "\x7d"

/-- Comma-separated rendering of a JSON array's elements. -/
def jvalListRepr : List JVal → String
  | [] => ""
  | [x] => jvalRepr x
  | x :: y :: rest => jvalRepr x ++ ", " ++ jvalListRepr (y :: rest)

/-- Comma-separated rendering of a JSON object's fields. -/
def jvalFieldsRepr : List (String × JVal) → String
  | [] => ""
  | [e] => "'" ++ e.1 ++ "': " ++ jvalRepr e.2
  | e :: f :: rest =>
    "'" ++ e.1 ++ "': " ++ jvalRepr e.2 ++ ", " ++ jvalFieldsRepr (f :: rest)

end

/-- Generic lookup in a path-indexed store (shared by the two JSON-line
processors). -/
def lookupStore {α : Type} (fs : List (String × α)) (p : String) : Option α :=
  (fs.find? (fun e => e.1 = p)).map (fun e => e.2)

/-! ### JSON-line link extractor (`extract_link_data` /
`process_link_files`, app.py 179-281)

One line of a link log is embedded by what the source inspects about it:
whether it contains a brace-delimited fragment (`re.search(r'\{.*\}',
line)`), the captured `INFO - (\d{4}-\d{2}-\d{2} \d{2}:\d{2}:\d{2})`
timestamp — already split at its single space into the date and time parts,
the shape the pattern guarantees — and the outcome of
`json.loads(line[line.find('\x7b'):])`, with `none` for a
`json.JSONDecodeError`. -/

structure LinkLine where
  hasJson : Bool
  infoStamp : Option (String × String)
  payload : Option Json

/-- Records one link-log line contributes (app.py lines 192-207): requires
a JSON fragment, a matching `INFO - ` timestamp and a parsable payload; the
`Date` and `Time` keys are assigned into the payload. -/
def linkLineData (ln : LinkLine) : List Json :=
  if ln.hasJson then
    match ln.infoStamp with
    | some dt =>
      match ln.payload with
      | some data => [dictSet (dictSet data "Date" (.str dt.1)) "Time" (.str dt.2)]
      | none => []
    | none => []
  else []

/-- Embedding of `extract_link_data` (app.py 179-208) over the lines of one
file. -/
def extract_link_data (lines : List LinkLine) : List Json :=
  (lines.map linkLineData).flatten

/-- Python `for item in items` over a popped `items` value: absent means
the `[]` default; a present non-array raises (`.error`). -/
def popArr : Option JVal → Except Unit (List JVal)
  | none => .ok []
  | some (.arr xs) => .ok xs
  | some _ => .error ()

/-- An item must be an object for `item.update(data)` to succeed; anything
else raises (`.error`). -/
def asObj : JVal → Except Unit Json
  | .obj l => .ok l
  | _ => .error ()

/-- Expansion of one link payload (app.py lines 226-232): pop `items`,
merge all remaining parent fields into each item via `item.update(data)`. -/
def linkExpandPayload (data : Json) : Except Unit (List Json) := do
  let pr := dictPop "items" data
  let items ← popArr pr.1
  let objs ← items.mapM asObj
  pure (objs.map (fun it => dictUpdate it pr.2))

/-- Flattened items of one link file. -/
def linkFileItems (lines : List LinkLine) : Except Unit (List Json) := do
  let parts ← (extract_link_data lines).mapM linkExpandPayload
  pure parts.flatten

/-- Per-file step of the link batch loop: `extract_link_data(file_path)`
via the store; a missing path makes `open` raise, uncaught (`.error`). -/
def linkReadFile (fs : List (String × List LinkLine)) (p : String) :
    Except Unit (List Json) :=
  match lookupStore fs p with
  | some lines => linkFileItems lines
  | none => .error ()

/-- Embedding of `process_link_files` (app.py 210-281): the collected
`all_items` and the summary entries, plus the file store after the batch —
which the source leaves untouched (it contains no `os.remove`).  A missing
file makes `open` raise, uncaught (`.error`); when no items were collected
the function returns early with no summary entry (app.py 235-237);
otherwise exactly one batch entry `[len(file_paths),
os.path.basename(file_path)]` is appended (app.py line 281), `file_path`
being the loop variable, i.e. the last file. -/
def process_link_files (paths : List String) (fs : List (String × List LinkLine)) :
    Except Unit (List Json × List SummaryEntry) × List (String × List LinkLine) :=
  let r : Except Unit (List Json × List SummaryEntry) := do
    let parts ← paths.mapM (linkReadFile fs)
    let allItems := parts.flatten
    if allItems.isEmpty then pure (allItems, [])
    else
      pure (allItems,
        [SummaryEntry.batch paths.length (pyBasename (paths.getLastD ""))])
  (r, fs)

/-! ### JSON-line equipment extractor (`extract_equipment_data` /
`flatten_items` / `process_equipment_files`, app.py 283-433) -/

/-- One line of an equipment log: whether it contains a brace-delimited
fragment, and the outcome of `json.loads` on the fragment (`none` for a
`json.JSONDecodeError`). -/
structure EquipLine where
  hasJson : Bool
  payload : Option Json

/-- Records one equipment-log line contributes (app.py lines 296-312).
The payload is appended only when `messageSendTime` is present; its value
is split at `'T'` into date and time, the time truncated at `'+'` and then
at `'.'`.  A non-string `messageSendTime`, or one whose split at `'T'` does
not give exactly two parts, raises outside the caught
`json.JSONDecodeError` (`.error`). -/
def equipLineData (ln : EquipLine) : Except Unit (List Json) :=
  if ln.hasJson then
    match ln.payload with
    | none => .ok []
    | some data =>
      if dictMem "messageSendTime" data then
        match dictGet "messageSendTime" data with
        | some (.str s) =>
          match pySplit 'T' s with
          | [d, t] =>
            .ok [dictSet (dictSet data "Date" (.str d)) "Time"
                  (.str ((pySplit '.' ((pySplit '+' t).headD "")).headD ""))]
          | _ => .error ()
        | _ => .error ()
      else .ok []
  else .ok []

/-- Embedding of `extract_equipment_data` (app.py 283-313) over the lines
of one file. -/
def extract_equipment_data (lines : List EquipLine) : Except Unit (List Json) := do
  let parts ← lines.mapM equipLineData
  pure parts.flatten

/-- Embedding of `flatten_items` for a single item (app.py 326-331): the
nested `equipmentItems` value, when present, is replaced by its Python
`str()` rendering. -/
def flatten_item (it : Json) : Json :=
  match dictGet "equipmentItems" it with
  | some v => dictSet it "equipmentItems" (.str (jvalRepr v))
  | none => it

/-- Embedding of `flatten_items` (app.py 316-332). -/
def flatten_items (items : List Json) : List Json :=
  items.map flatten_item

/-- Expansion of one equipment payload (app.py lines 400-407): pop
`items`; when non-empty, flatten each item and merge the remaining parent
fields into it via `item.update(data)`. -/
def equipExpandPayload (data : Json) : Except Unit (List Json) := do
  let pr := dictPop "items" data
  let items ← popArr pr.1
  if items.isEmpty then pure []
  else do
    let objs ← items.mapM asObj
    pure ((flatten_items objs).map (fun it => dictUpdate it pr.2))

/-- Maximum rows per sheet of the equipment processor (app.py line 346). -/
def columns_per_sheet : Nat := 1000000

/-- One worksheet of the equipment output: its header row and its data
rows (kept as records; rendering to cells does not affect the claims). -/
structure Table where
  header : List String
  rows : List Json

/-- Row-appending loop of `add_data_to_sheet` (app.py 359-363): appends
rows of the part, stopping when the row count reaches the per-sheet cap. -/
def appendRowsCapped (t : Nat) : Table → Nat → List Json → Table × Nat
  | tbl, rc, [] => (tbl, rc)
  | tbl, rc, r :: rest =>
    if rc ≥ t then (tbl, rc)
    else appendRowsCapped t { tbl with rows := tbl.rows ++ [r] } (rc + 1) rest

/-- Embedding of `add_data_to_sheet` (app.py 349-363): the header is
appended only when the sheet is still empty (`row_count == 0`). -/
def add_data_to_sheet (t : Nat) (cols : List String) (tbl : Table) (rc : Nat)
    (part : List Json) : Table × Nat :=
  let tbl2 := if rc = 0 then { tbl with header := cols } else tbl
  appendRowsCapped t tbl2 rc part

/-- Pagination loop of `process_equipment_files` (app.py 420-430): while
rows remain, open a fresh sheet once the current one is full, split off
`min(columns_per_sheet - row_count, len(items_df))` rows and add them. -/
def equipPaginate (t : Nat) (cols : List String) :
    Nat → List Json → Table → Nat → List Table → List Table
  | 0, _, cur, _, done => done ++ [cur]
  | fuel + 1, df, cur, rc, done =>
    if df.isEmpty then done ++ [cur]
    else
      let next := if rc ≥ t then (done ++ [cur], Table.mk [] [], 0)
                  else (done, cur, rc)
      let si := min (t - next.2.2) df.length
      let added := add_data_to_sheet t cols next.2.1 next.2.2 (df.take si)
      equipPaginate t cols fuel (df.drop si) added.1 added.2 next.1

/-- All sheets the pagination loop produces for one batch of records. -/
def equipTables (t : Nat) (cols : List String) (recs : List Json) : List Table :=
  equipPaginate t cols (recs.length + 1) recs (Table.mk [] []) 0 []

/-- Union of the record keys in first-seen order: the column set a pandas
`DataFrame(all_items)` exposes (app.py line 413). -/
def firstSeenKeys (recs : List Json) : List String :=
  recs.foldl
    (fun acc rec =>
      rec.foldl (fun acc2 e => if acc2.contains e.1 then acc2 else acc2 ++ [e.1]) acc)
    []

/-- Column order of the JSON-line worksheets (app.py lines 416-417):
`Date`, `Time` first, every other column in first-seen order. -/
def columnsOrder (recs : List Json) : List String :=
  ["Date", "Time"] ++ (firstSeenKeys recs).filter (fun c => c ≠ "Date" && c ≠ "Time")

/-- Per-file step of the equipment batch loop: extraction plus per-payload
expansion; a missing path makes `open` raise, uncaught (`.error`). -/
def equipReadFile (fs : List (String × List EquipLine)) (p : String) :
    Except Unit (List Json) :=
  match lookupStore fs p with
  | some lines => do
    let ds ← extract_equipment_data lines
    let ps ← ds.mapM equipExpandPayload
    pure ps.flatten
  | none => .error ()

/-- Embedding of `process_equipment_files` (app.py 334-433): the collected
`all_items`, the paginated sheets, and the summary entries, plus the file
store after the batch — which the source leaves untouched (no `os.remove`).
When no items were collected the function returns early with neither sheets
nor summary (app.py 409-411); otherwise exactly one batch entry
`[total_files_processed, os.path.basename(file_path)]` is appended (app.py
line 433) with `total_files_processed = len(file_paths)` and `file_path`
the last file of the loop. -/
def process_equipment_files (paths : List String)
    (fs : List (String × List EquipLine)) :
    Except Unit (List Json × List Table × List SummaryEntry) ×
      List (String × List EquipLine) :=
  let r : Except Unit (List Json × List Table × List SummaryEntry) := do
    let parts ← paths.mapM (equipReadFile fs)
    let allItems := parts.flatten
    if allItems.isEmpty then pure (allItems, [], [])
    else
      pure (allItems,
        equipTables columns_per_sheet (columnsOrder allItems) allItems,
        [SummaryEntry.batch paths.length (pyBasename (paths.getLastD ""))])
  (r, fs)

/-! ### Concrete fixtures used by counterexamples and witnesses -/

/-- An HTML export with header `IP=10.0.0.1`, `System Name: RTR-1` and two
matching event rows whose entry ids are `"3"` (first in the markup) and
`"12"` (second in the markup). -/
def c1content : String :=
  "IP=10.0.0.1\nSystem Name: RTR-1\n<tr><td>3: <font color=\"#3366FF\">01.02.03 04:05:06: A B C , D , 7<br>...P\n<tr><td>12: <font color=\"#3366FF\">01.02.03 04:05:07: A B C , D , 8<br>...Q\n"

/-- A syslog line carrying a `-Traceback=` suffix. -/
def c3content : String :=
  "*Mar  1 00:01:02.003: %SYS-5-CONFIG_I: configured -Traceback=1234abcd"

/-- A syslog file whose two event lines appear in decreasing timestamp
order. -/
def c9content : String :=
  "*Mar  1 10:00:00.500: %LINK-3-UPDOWN: b went down\nMar 2 09:59:59.100: %SYS-5-RESTART: a restarted\n"

/-- One stored link file whose single line has an `INFO - ` timestamp and a
payload with a two-element `items` array and a parent `node` field. -/
def linkFixtureLines : List LinkLine :=
  [⟨true, some ("2024-01-01", "10:00:00"),
    some [("items", .arr [.obj [("a", .num 1)], .obj [("a", .num 2)]]),
          ("node", .str "X")]⟩]

/-- Link-file store holding the fixture file. -/
def linkFixtureFS : List (String × List LinkLine) :=
  [("logs/link_a.log", linkFixtureLines)]

/-- One stored equipment file whose single line has a `messageSendTime` and
a one-element `items` array. -/
def equipFixtureLines : List EquipLine :=
  [⟨true, some [("messageSendTime", .str "2024-01-02T10:20:30.123+07:00"),
                ("items", .arr [.obj [("b", .num 2)]])]⟩]

/-- Equipment-file store holding the fixture file. -/
def equipFixtureFS : List (String × List EquipLine) :=
  [("logs/equipment_b.log", equipFixtureLines)]

/-- Fifteen one-field records, for exercising the pagination loop at
threshold 5 (15 = 2 * 5 + 5). -/
def recs15 : List Json := (List.range 15).map (fun i => [("i", JVal.num i)])

/-- A decoder for which only the third candidate encoding succeeds. -/
def decodeThirdOnly : String → Option String :=
  fun e => if e = "windows-1252" then some "third-only" else none

/-- A link payload whose `items` entry shares the key `node` with the
parent object, with different values. -/
def c10data : Json :=
  [("items", .arr [.obj [("node", .str "item-node"), ("a", .num 1)]]),
   ("node", .str "parent-node"), ("Date", .str "d")]

/-- The single flattened record `linkExpandPayload` produces for
`c10data`. -/
def c10rec : Json :=
  [("node", .str "parent-node"), ("a", .num 1), ("Date", .str "d")]

/-! ## Theorems -/

/-! ### Properties of the code-point comparison -/

theorem charsLe_total : ∀ a b : List Char, charsLe a b = true ∨ charsLe b a = true
  | [], _ => Or.inl rfl
  | _ :: _, [] => Or.inr rfl
  | c :: cs, d :: ds => by
    rcases Nat.lt_trichotomy c.toNat d.toNat with h | h | h
    · left; simp [charsLe, h]
    · have h1 : ¬ c.toNat < d.toNat := by omega
      have h2 : ¬ d.toNat < c.toNat := by omega
      simpa [charsLe, h1, h2] using charsLe_total cs ds
    · right; simp [charsLe, h]

theorem charsLe_trans : ∀ a b c : List Char,
    charsLe a b = true → charsLe b c = true → charsLe a c = true := by
  intro a
  induction a with
  | nil => intro b c _ _; rfl
  | cons x xs ih =>
    intro b c h1 h2
    cases b with
    | nil => simp [charsLe] at h1
    | cons y ys =>
      cases c with
      | nil => simp [charsLe] at h2
      | cons z zs =>
        have hx : x.toNat < y.toNat ∨ (x.toNat = y.toNat ∧ charsLe xs ys = true) := by
          by_cases h : x.toNat < y.toNat
          · exact Or.inl h
          · by_cases h' : y.toNat < x.toNat
            · simp [charsLe, h, h'] at h1
            · exact Or.inr ⟨by omega, by simpa [charsLe, h, h'] using h1⟩
        have hy : y.toNat < z.toNat ∨ (y.toNat = z.toNat ∧ charsLe ys zs = true) := by
          by_cases h : y.toNat < z.toNat
          · exact Or.inl h
          · by_cases h' : z.toNat < y.toNat
            · simp [charsLe, h, h'] at h2
            · exact Or.inr ⟨by omega, by simpa [charsLe, h, h'] using h2⟩
        rcases hx with h | ⟨he, hxs⟩ <;> rcases hy with h' | ⟨he', hys⟩
        · simp [charsLe, show x.toNat < z.toNat by omega]
        · simp [charsLe, show x.toNat < z.toNat by omega]
        · simp [charsLe, show x.toNat < z.toNat by omega]
        · have g1 : ¬ x.toNat < z.toNat := by omega
          have g2 : ¬ z.toNat < x.toNat := by omega
          simpa [charsLe, g1, g2] using ih ys zs hxs hys

/-! ### C5: the encoding-resilient reader -/

/-- C5: for every file read through the encoding-resilient reader the
returned text is the decode under the first candidate of
`[utf-8, iso-8859-1, windows-1252]` that succeeds, and the reader fails if
and only if all three candidates fail. -/
theorem C5_reader_first_success (decode : String → Option String) :
    (read_file_with_multiple_encodings decode = none ↔
      decode "utf-8" = none ∧ decode "iso-8859-1" = none ∧
        decode "windows-1252" = none) ∧
    (∀ t : String, read_file_with_multiple_encodings decode = some t ↔
      (decode "utf-8" = some t ∨
       (decode "utf-8" = none ∧ decode "iso-8859-1" = some t) ∨
       (decode "utf-8" = none ∧ decode "iso-8859-1" = none ∧
         decode "windows-1252" = some t))) := by
  cases h1 : decode "utf-8" <;> cases h2 : decode "iso-8859-1" <;>
    cases h3 : decode "windows-1252" <;>
      simp [read_file_with_multiple_encodings, h1, h2, h3]

/-- Witness for C5: a file decodable only under the third candidate is
returned as its third-candidate decode. -/
theorem C5_reader_first_success_witness :
    read_file_with_multiple_encodings decodeThirdOnly = some "third-only" :=
  ((C5_reader_first_success decodeThirdOnly).2 "third-only").mpr
    (Or.inr (Or.inr ⟨rfl, rfl, rfl⟩))

/-! ### C1: order of the HTML event rows -/

/-- C1 (as stated) is false: on `c1content`, whose two event rows have
entry ids `"3"` and `"12"`, the emitted entry-id column is `["12", "3"]` —
the `entry_id=3` row is second, not first, and the numeric values `12, 3`
are not in non-decreasing order. -/
theorem C1_counterexample :
    (htmlFileRows c1content).map (fun r => r.ev.entryId) = ["12", "3"] ∧
    ¬ ((htmlFileRows c1content).map (fun r => r.ev.entryId) = ["3", "12"]) ∧
    (htmlFileRows c1content).map (fun r => decimalOf r.ev.entryId) = [12, 3] ∧
    ¬ ((12 : Nat) ≤ 3) := by
  refine ⟨by decide, by decide, by decide, by decide⟩

/-- C1 (amended): rows emitted for one HTML file are sorted by the entry-id
field under code-point lexicographic string comparison (pandas sorts the
object-dtype column as text, not numerically), and they are exactly the
events matched in the markup, each carrying the file's IP device and system
name; for entry ids `"12"` and `"3"` the `"12"` row therefore comes
first. -/
theorem C1_amended_html_rows_sorted_lexically (content : String) :
    List.Sorted entryIdLe (htmlFileRows content) ∧
    (htmlFileRows content).Perm
      ((htmlEvents content).map
        (fun e => ⟨ipDeviceOf content, systemNameOf content, e⟩)) := by
  haveI : IsTotal EventRow entryIdLe := ⟨fun a b => charsLe_total _ _⟩
  haveI : IsTrans EventRow entryIdLe := ⟨fun _ _ _ => charsLe_trans _ _ _⟩
  unfold htmlFileRows
  cases h : (htmlEvents content).isEmpty
  · simp only [h, Bool.false_eq_true, if_false]
    exact ⟨List.sorted_insertionSort entryIdLe _, List.perm_insertionSort entryIdLe _⟩
  · have hnil : htmlEvents content = [] := by
      cases hc : htmlEvents content
      · rfl
      · rw [hc] at h; simp at h
    simp [h, hnil]

/-! ### C3: the traceback capture of the syslog pattern -/

/-- C3: the source's own pattern intends a `Traceback` capture (group 8 and
a dedicated worksheet column), but the greedy `(.+)` message group consumes
the rest of the line, so on a line carrying `-Traceback=1234abcd` the
extracted tuple has an empty traceback and the traceback text stays inside
the message field. -/
theorem C3_traceback_not_captured :
    (syslogEvents c3content).map (fun e => (e.message, e.traceback)) =
      [("configured -Traceback=1234abcd", "")] := by decide

/-! ### C9: order of the syslog rows -/

/-- C9: rows emitted for one syslog/text file are sorted ascending by the
timestamp field under lexical (code-point) string comparison and are
exactly the tuples matched by the extraction pattern, each prefixed with
the filename-derived system name. -/
theorem C9_syslog_rows_sorted_by_timestamp (path content : String) :
    List.Sorted timestampLe (logFileRows path content) ∧
    (logFileRows path content).Perm
      ((syslogEvents content).map (fun e => ⟨sysNameOfPath path, e⟩)) := by
  haveI : IsTotal SyslogRow timestampLe := ⟨fun a b => charsLe_total _ _⟩
  haveI : IsTrans SyslogRow timestampLe := ⟨fun _ _ _ => charsLe_trans _ _ _⟩
  unfold logFileRows
  cases h : (syslogEvents content).isEmpty
  · simp only [h, Bool.false_eq_true, if_false]
    exact ⟨List.sorted_insertionSort timestampLe _, List.perm_insertionSort timestampLe _⟩
  · have hnil : syslogEvents content = [] := by
      cases hc : syslogEvents content
      · rfl
      · rw [hc] at h; simp at h
    simp [h, hnil]

/-! ### Lemmas about the shared batch driver -/

theorem lookupFS_mem (fs : TextFS) (p c : String) (h : lookupFS fs p = some c) :
    (p, c) ∈ fs := by
  unfold lookupFS at h
  cases hf : fs.find? (fun e => e.1 = p) with
  | none => rw [hf] at h; simp at h
  | some e =>
    rw [hf] at h
    simp at h
    have hmem := List.mem_of_find?_eq_some hf
    have hpred : e.1 = p := by
      have hb := List.find?_some hf
      simpa using hb
    have he : e = (p, c) := by
      cases e
      simp_all
    rwa [he] at hmem

theorem lookupFS_eq_none_iff (fs : TextFS) (p : String) :
    lookupFS fs p = none ↔ ∀ e ∈ fs, e.1 ≠ p := by
  unfold lookupFS
  simp [List.find?_eq_none]

theorem mem_batchGo_fs {ρ : Type} (fR : String → String → List ρ)
    (fS : Nat → String → String → List SummaryEntry) :
    ∀ (paths : List String) (idx : Nat) (fs : TextFS) (e : String × String),
      e ∈ (batchGo fR fS idx paths fs).fs → e ∈ fs := by
  intro paths
  induction paths with
  | nil => intro idx fs e h; simpa [batchGo] using h
  | cons p rest ih =>
    intro idx fs e h
    cases hl : lookupFS fs p with
    | none => simp only [batchGo, hl] at h; exact h
    | some c =>
      simp only [batchGo, hl] at h
      exact List.mem_of_mem_filter (ih (idx + 1) _ e h)

theorem batchGo_removes {ρ : Type} (fR : String → String → List ρ)
    (fS : Nat → String → String → List SummaryEntry) :
    ∀ (paths : List String) (idx : Nat) (fs : TextFS) (p : String),
      p ∈ paths → (batchGo fR fS idx paths fs).completed = true →
      lookupFS (batchGo fR fS idx paths fs).fs p = none := by
  intro paths
  induction paths with
  | nil => intro idx fs p h _; simp at h
  | cons q rest ih =>
    intro idx fs p h hc
    cases hl : lookupFS fs q with
    | none => simp [batchGo, hl] at hc
    | some c =>
      simp only [batchGo, hl] at hc ⊢
      rcases List.mem_cons.mp h with he | hm
      · subst he
        rw [lookupFS_eq_none_iff]
        intro e hefs
        have h1 := mem_batchGo_fs fR fS rest (idx + 1) _ e hefs
        have h2 := (List.mem_filter.mp h1).2
        simpa using h2
      · exact ih (idx + 1) _ p hm hc

theorem batchGo_empty {ρ : Type} (fR : String → String → List ρ)
    (fS : Nat → String → String → List SummaryEntry) :
    ∀ (paths : List String) (idx : Nat) (fs : TextFS),
      (∀ p c, (p, c) ∈ fs → fR p c = []) →
      (∀ i p c, (p, c) ∈ fs → fS i p c = []) →
      (batchGo fR fS idx paths fs).rows = [] ∧
        (batchGo fR fS idx paths fs).summary = [] := by
  intro paths
  induction paths with
  | nil => intro idx fs _ _; simp [batchGo]
  | cons p rest ih =>
    intro idx fs hR hS
    have hR2 : ∀ q c, (q, c) ∈ fs.filter (fun e => e.1 ≠ p) → fR q c = [] :=
      fun q c h => hR q c (List.mem_of_mem_filter h)
    have hS2 : ∀ i q c, (q, c) ∈ fs.filter (fun e => e.1 ≠ p) → fS i q c = [] :=
      fun i q c h => hS i q c (List.mem_of_mem_filter h)
    have hrec := ih (idx + 1) _ hR2 hS2
    cases hl : lookupFS fs p with
    | none => simp [batchGo, hl]
    | some c =>
      have hmem := lookupFS_mem fs p c hl
      simp only [ne_eq, decide_not] at hrec
      simp [batchGo, hl, hR p c hmem, hS idx p c hmem, hrec.1, hrec.2]

/-! ### C6: files and batches with zero pattern matches -/

/-- C6: an HTML or syslog/text file whose pattern extraction yields zero
matches contributes zero table rows and zero summary entries, and a batch
in which every stored file yields zero matches produces a table consisting
of the header row only, with an empty summary. -/
theorem C6_zero_matches (content path : String) (idx : Nat)
    (paths : List String) (fsH fsL : TextFS)
    (hch : htmlEvents content = []) (hcl : syslogEvents content = [])
    (hH : ∀ p c, (p, c) ∈ fsH → htmlEvents c = [])
    (hL : ∀ p c, (p, c) ∈ fsL → syslogEvents c = []) :
    htmlFileRows content = [] ∧ htmlFileSummary idx path content = [] ∧
    logFileRows path content = [] ∧ logFileSummary idx path content = [] ∧
    (process_html_files paths fsH).rows = [htmlHeaderRow] ∧
    (process_html_files paths fsH).summary = [] ∧
    (process_log_files paths fsL).rows = [syslogHeaderRow] ∧
    (process_log_files paths fsL).summary = [] := by
  have hHrows : ∀ p c, (p, c) ∈ fsH → htmlFileRows c = [] := by
    intro p c h; simp [htmlFileRows, hH p c h]
  have hHsumm : ∀ i p c, (p, c) ∈ fsH → htmlFileSummary i p c = [] := by
    intro i p c h; simp [htmlFileSummary, hH p c h]
  have hLrows : ∀ p c, (p, c) ∈ fsL → logFileRows p c = [] := by
    intro p c h; simp [logFileRows, hL p c h]
  have hLsumm : ∀ i p c, (p, c) ∈ fsL → logFileSummary i p c = [] := by
    intro i p c h; simp [logFileSummary, hL p c h]
  have hbH := batchGo_empty (fun _ c => htmlFileRows c) htmlFileSummary paths 1 fsH
    (fun p c h => hHrows p c h) hHsumm
  have hbL := batchGo_empty logFileRows logFileSummary paths 1 fsL hLrows hLsumm
  refine ⟨by simp [htmlFileRows, hch], by simp [htmlFileSummary, hch],
    by simp [logFileRows, hcl], by simp [logFileSummary, hcl], ?_, ?_, ?_, ?_⟩
  · show htmlHeaderRow ::
      (batchGo (fun _ c => htmlFileRows c) htmlFileSummary 1 paths fsH).rows.map
        renderEventRow = [htmlHeaderRow]
    rw [hbH.1]; rfl
  · exact hbH.2
  · show syslogHeaderRow ::
      (batchGo logFileRows logFileSummary 1 paths fsL).rows.map renderSyslogRow =
        [syslogHeaderRow]
    rw [hbL.1]; rfl
  · exact hbL.2

/-- Witness for C6 at a concrete no-match batch. -/
theorem C6_zero_matches_witness :
    htmlFileRows "nothing here" = [] ∧
    htmlFileSummary 1 "a.html" "nothing here" = [] ∧
    logFileRows "a.html" "nothing here" = [] ∧
    logFileSummary 1 "a.html" "nothing here" = [] ∧
    (process_html_files ["a.html"] [("a.html", "nothing here")]).rows =
      [htmlHeaderRow] ∧
    (process_html_files ["a.html"] [("a.html", "nothing here")]).summary = [] ∧
    (process_log_files ["a.html"] [("a.html", "nothing here")]).rows =
      [syslogHeaderRow] ∧
    (process_log_files ["a.html"] [("a.html", "nothing here")]).summary = [] := by
  refine C6_zero_matches "nothing here" "a.html" 1 ["a.html"]
    [("a.html", "nothing here")] [("a.html", "nothing here")]
    (by decide) (by decide) ?_ ?_
  · intro p c h
    have h2 : (p, c) = ("a.html", "nothing here") := by simpa using h
    have hc : c = "nothing here" := congrArg Prod.snd h2
    subst hc
    decide
  · intro p c h
    have h2 : (p, c) = ("a.html", "nothing here") := by simpa using h
    have hc : c = "nothing here" := congrArg Prod.snd h2
    subst hc
    decide

/-! ### C2: deletion of source files after processing -/

/-- C2 (as stated) is false: a processed link-status file (and likewise an
equipment-status file) is still present in the file store after its batch
completes — `process_link_files` and `process_equipment_files` contain no
deletion at all. -/
theorem C2_counterexample :
    (process_link_files ["logs/link_a.log"] linkFixtureFS).2.map Prod.fst =
      ["logs/link_a.log"] ∧
    (process_equipment_files ["logs/equipment_b.log"] equipFixtureFS).2.map
      Prod.fst = ["logs/equipment_b.log"] :=
  ⟨rfl, rfl⟩

/-- Demonstration of the batch-abort path the `finally` block creates: with
the path `a.html` listed twice, its second iteration finds the file already
removed, the `os.remove` in `finally` raises, the batch does not complete,
and `b.html` is left both unprocessed and undeleted. -/
theorem batch_aborts_on_duplicate_path :
    (process_html_files ["a.html", "a.html", "b.html"]
      [("a.html", "x"), ("b.html", "y")]).completed = false ∧
    lookupFS (process_html_files ["a.html", "a.html", "b.html"]
      [("a.html", "x"), ("b.html", "y")]).fs "b.html" = some "y" :=
  ⟨rfl, rfl⟩

/-- C2 (amended): when an HTML or syslog/text batch completes normally,
every file of the batch has been deleted from storage — the `finally` block
removes each file whether its extraction succeeded or failed.  (The batch
fails to complete only when a listed path is already absent at its turn, in
which case the `finally` block's own `os.remove` raises and aborts the
loop; see `batchGo`.)  The link-status and equipment-status processors
never delete their files: their store is returned untouched. -/
theorem C2_amended_deletion (paths : List String) (fsH fsL : TextFS)
    (lfs : List (String × List LinkLine)) (efs : List (String × List EquipLine))
    (p : String) (hp : p ∈ paths)
    (hcH : (process_html_files paths fsH).completed = true)
    (hcL : (process_log_files paths fsL).completed = true) :
    lookupFS (process_html_files paths fsH).fs p = none ∧
    lookupFS (process_log_files paths fsL).fs p = none ∧
    (process_link_files paths lfs).2 = lfs ∧
    (process_equipment_files paths efs).2 = efs := by
  refine ⟨?_, ?_, rfl, rfl⟩
  · exact batchGo_removes (fun _ c => htmlFileRows c) htmlFileSummary paths 1
      fsH p hp hcH
  · exact batchGo_removes logFileRows logFileSummary paths 1 fsL p hp hcL

/-- Witness for C2 (amended) at a concrete one-file batch per category,
with the completion hypotheses discharged by evaluation. -/
theorem C2_amended_deletion_witness :
    lookupFS (process_html_files ["a.html"] [("a.html", "x")]).fs "a.html" = none ∧
    lookupFS (process_log_files ["a.html"] [("a.html", "x")]).fs "a.html" = none ∧
    (process_link_files ["a.html"] linkFixtureFS).2 = linkFixtureFS ∧
    (process_equipment_files ["a.html"] equipFixtureFS).2 = equipFixtureFS :=
  C2_amended_deletion ["a.html"] [("a.html", "x")] [("a.html", "x")]
    linkFixtureFS equipFixtureFS "a.html" (by decide) (by rfl) (by rfl)

/-! ### Lemmas about the Python-dict operations -/

theorem dictGet_cons (k : String) (e : String × JVal) (d : Json) :
    dictGet k (e :: d) = if e.1 = k then some e.2 else dictGet k d := by
  by_cases h : e.1 = k <;> simp [dictGet, List.find?_cons, h]

theorem dictGet_dictSet_self (d : Json) (k : String) (v : JVal) :
    dictGet k (dictSet d k v) = some v := by
  induction d with
  | nil => simp [dictSet, dictGet, List.find?]
  | cons e rest ih =>
    by_cases h : e.1 = k
    · simp [dictSet, h, dictGet_cons]
    · simp [dictSet, h, dictGet_cons, ih]

theorem dictGet_dictSet_ne (d : Json) (k k2 : String) (v : JVal) (h : k2 ≠ k) :
    dictGet k (dictSet d k2 v) = dictGet k d := by
  induction d with
  | nil => simp [dictSet, dictGet, List.find?, h]
  | cons e rest ih =>
    by_cases he : e.1 = k2
    · have hek : ¬ e.1 = k := by rw [he]; exact h
      simp [dictSet, he, dictGet_cons, h, hek]
    · by_cases hek : e.1 = k
      · have hkk2 : ¬ k = k2 := fun hh => h hh.symm
        simp [dictSet, he, dictGet_cons, hek, hkk2]
      · simp [dictSet, he, dictGet_cons, hek, ih]

theorem dictGet_dictUpdate_none (d other : Json) (k : String)
    (h : dictGet k other = none) :
    dictGet k (dictUpdate d other) = dictGet k d := by
  induction other generalizing d with
  | nil => simp [dictUpdate]
  | cons e rest ih =>
    have hek : e.1 ≠ k := by
      intro he
      rw [dictGet_cons, if_pos he] at h
      simp at h
    have hrest : dictGet k rest = none := by
      rw [dictGet_cons, if_neg hek] at h
      exact h
    have hstep : dictUpdate d (e :: rest) = dictUpdate (dictSet d e.1 e.2) rest := rfl
    rw [hstep, ih _ hrest, dictGet_dictSet_ne _ _ _ _ hek]

theorem dictGet_dictUpdate_some (d other : Json) (k : String) (v : JVal)
    (hnd : (other.map Prod.fst).Nodup) (h : dictGet k other = some v) :
    dictGet k (dictUpdate d other) = some v := by
  induction other generalizing d with
  | nil => simp [dictGet, List.find?] at h
  | cons e rest ih =>
    simp only [List.map_cons, List.nodup_cons] at hnd
    have hstep : dictUpdate d (e :: rest) = dictUpdate (dictSet d e.1 e.2) rest := rfl
    rw [hstep]
    rw [dictGet_cons] at h
    by_cases hek : e.1 = k
    · rw [if_pos hek] at h
      subst hek
      have hfind : rest.find? (fun e2 => e2.1 = e.1) = none := by
        rw [List.find?_eq_none]
        intro x hx
        simp only [decide_eq_true_eq]
        intro hxk
        exact hnd.1 (by rw [← hxk]; exact List.mem_map_of_mem Prod.fst hx)
      have hkr : dictGet e.1 rest = none := by simp [dictGet, hfind]
      rw [dictGet_dictUpdate_none _ _ _ hkr, dictGet_dictSet_self]
      exact h
    · rw [if_neg hek] at h
      exact ih _ hnd.2 h

theorem dictMem_of_dictGet (d : Json) (k : String) (v : JVal)
    (h : dictGet k d = some v) : dictMem k d = true := by
  induction d with
  | nil => simp [dictGet, List.find?] at h
  | cons e rest ih =>
    rw [dictGet_cons] at h
    by_cases hek : e.1 = k
    · simp [dictMem, List.any_cons, hek]
    · rw [if_neg hek] at h
      have hr := ih h
      simp only [dictMem, List.any_cons] at hr ⊢
      simp [hek, hr]

/-- Auxiliary: a map whose function is constant on the list is a
replicate. -/
theorem map_const_of_forall {α β : Type} (l : List α) (f : α → β) (b : β)
    (h : ∀ a ∈ l, f a = b) : l.map f = List.replicate l.length b := by
  induction l with
  | nil => rfl
  | cons x xs ih =>
    rw [List.map_cons, List.length_cons, List.replicate_succ, h x (by simp),
      ih (fun a ha => h a (by simp [ha]))]

/-! ### C10: parent fields overwrite item fields -/

/-- C10: in both the link-status and the equipment-status expansion, a key
present in the parent payload's remaining fields (which include the derived
`Date`/`Time` keys) ends up in every flattened record with the parent's
value, overwriting any value the item itself carried for that key
(`item.update(data)` assigns the parent's fields last). -/
theorem C10_parent_overwrites (data : Json) (k : String) (v : JVal)
    (recs : List Json)
    (hnd : (((dictPop "items" data).2).map Prod.fst).Nodup)
    (hv : dictGet k (dictPop "items" data).2 = some v)
    (hexp : linkExpandPayload data = Except.ok recs ∨
      equipExpandPayload data = Except.ok recs) :
    recs.map (dictGet k) = List.replicate recs.length (some v) := by
  have key : ∀ it : Json, dictGet k (dictUpdate it (dictPop "items" data).2) = some v :=
    fun it => dictGet_dictUpdate_some it _ k v hnd hv
  rcases hexp with h | h
  · simp only [linkExpandPayload] at h
    cases hpop : popArr (dictPop "items" data).1 with
    | error e => rw [hpop] at h; simp [Bind.bind, Except.bind] at h
    | ok items =>
      rw [hpop] at h
      simp only [Bind.bind, Except.bind] at h
      cases hmm : items.mapM asObj with
      | error e => rw [hmm] at h; simp at h
      | ok objs =>
        rw [hmm] at h
        simp only [pure, Except.pure, Except.ok.injEq] at h
        subst h
        rw [List.map_map, List.length_map]
        exact map_const_of_forall objs _ _ (fun a _ => key a)
  · simp only [equipExpandPayload] at h
    cases hpop : popArr (dictPop "items" data).1 with
    | error e => rw [hpop] at h; simp [Bind.bind, Except.bind] at h
    | ok items =>
      rw [hpop] at h
      simp only [Bind.bind, Except.bind] at h
      cases hie : items.isEmpty
      · rw [hie] at h
        simp only [Bool.false_eq_true, if_false, Bind.bind, Except.bind] at h
        cases hmm : items.mapM asObj with
        | error e => rw [hmm] at h; simp at h
        | ok objs =>
          rw [hmm] at h
          simp only [pure, Except.pure, Except.ok.injEq] at h
          subst h
          rw [List.map_map, List.length_map]
          exact map_const_of_forall _ _ _ (fun a _ => key _)
      · rw [hie] at h
        simp only [if_true, pure, Except.pure, Except.ok.injEq] at h
        subst h
        rfl

/-- Witness for C10: the parent's `node` value survives in the flattened
record in place of the item's own `node` value. -/
theorem C10_parent_overwrites_witness :
    ([c10rec].map (dictGet "node")) =
      List.replicate ([c10rec].length) (some (JVal.str "parent-node")) :=
  C10_parent_overwrites c10data "node" (JVal.str "parent-node") [c10rec]
    (by decide) rfl (Or.inl rfl)

/-! ### C4: equipment records and `messageSendTime` -/

/-- C4 (as stated) is false: a successfully parsed equipment payload that
lacks `messageSendTime` contributes no record at all — the append is inside
the `if 'messageSendTime' in data` branch — rather than a record without
`Date`/`Time`. -/
theorem C4_counterexample :
    equipLineData ⟨true, some [("a", JVal.num 1)]⟩ = .ok [] ∧
    extract_equipment_data [⟨true, some [("a", JVal.num 1)]⟩] = .ok [] :=
  ⟨rfl, rfl⟩

/-- C4 (amended): a parsed equipment payload without `messageSendTime` is
skipped entirely (no record, with or without `Date`/`Time`); when
`messageSendTime` is present as a string splitting at `'T'` into exactly
two parts, the record is kept with `Date` the part before `'T'` and `Time`
the part after `'T'` truncated at `'+'` (timezone) and then at `'.'`
(sub-second). -/
theorem C4_amended_messageSendTime :
    (∀ (ln : EquipLine) (data : Json), ln.hasJson = true →
      ln.payload = some data → dictMem "messageSendTime" data = false →
      equipLineData ln = .ok []) ∧
    (∀ (ln : EquipLine) (data : Json) (s d t : String), ln.hasJson = true →
      ln.payload = some data →
      dictGet "messageSendTime" data = some (.str s) →
      pySplit 'T' s = [d, t] →
      equipLineData ln = .ok [dictSet (dictSet data "Date" (.str d)) "Time"
        (.str ((pySplit '.' ((pySplit '+' t).headD "")).headD ""))]) := by
  constructor
  · intro ln data hj hp hmem
    cases ln with
    | mk hjf pl =>
      simp only at hj hp
      subst hj
      subst hp
      simp [equipLineData, hmem]
  · intro ln data s d t hj hp hget hsplit
    cases ln with
    | mk hjf pl =>
      simp only at hj hp
      subst hj
      subst hp
      simp [equipLineData, dictMem_of_dictGet data _ _ hget, hget, hsplit]

/-- Witness for C4 (amended): a payload without the field is dropped; one
with `messageSendTime = "2024-01-02T10:20:30.123+07:00"` gets
`Date = "2024-01-02"` and `Time = "10:20:30"`. -/
theorem C4_amended_messageSendTime_witness :
    equipLineData ⟨true, some [("b", JVal.num 2)]⟩ = .ok [] ∧
    equipLineData
        ⟨true, some [("messageSendTime",
          JVal.str "2024-01-02T10:20:30.123+07:00")]⟩ =
      .ok [[("messageSendTime", JVal.str "2024-01-02T10:20:30.123+07:00"),
            ("Date", JVal.str "2024-01-02"), ("Time", JVal.str "10:20:30")]] := by
  constructor
  · exact C4_amended_messageSendTime.1 _ [("b", JVal.num 2)] rfl rfl (by decide)
  · have h := C4_amended_messageSendTime.2
      ⟨true, some [("messageSendTime", JVal.str "2024-01-02T10:20:30.123+07:00")]⟩
      [("messageSendTime", JVal.str "2024-01-02T10:20:30.123+07:00")]
      "2024-01-02T10:20:30.123+07:00" "2024-01-02" "10:20:30.123+07:00"
      rfl rfl rfl (by decide)
    exact h

/-! ### C8: one summary entry per JSON-line batch -/

/-- C8: a link-status or equipment-status batch that yields at least one
flattened record appends exactly one summary entry for the whole batch,
whose count is the number of files and whose filename is the basename of
the last file processed; no per-file entries are appended. -/
theorem C8_batch_summary (lpaths epaths : List String)
    (lfs : List (String × List LinkLine)) (efs : List (String × List EquipLine))
    (litems : List Json) (lsums : List SummaryEntry)
    (eitems : List Json) (etbls : List Table) (esums : List SummaryEntry)
    (hl : (process_link_files lpaths lfs).1 = .ok (litems, lsums))
    (hln : litems ≠ [])
    (he : (process_equipment_files epaths efs).1 = .ok (eitems, etbls, esums))
    (hen : eitems ≠ []) :
    lsums = [SummaryEntry.batch lpaths.length (pyBasename (lpaths.getLastD ""))] ∧
    esums = [SummaryEntry.batch epaths.length (pyBasename (epaths.getLastD ""))] := by
  constructor
  · simp only [process_link_files] at hl
    cases hmm : lpaths.mapM (linkReadFile lfs) with
    | error e => rw [hmm] at hl; simp [Bind.bind, Except.bind] at hl
    | ok parts =>
      rw [hmm] at hl
      simp only [Bind.bind, Except.bind] at hl
      cases hie : parts.flatten.isEmpty
      · rw [hie] at hl
        simp only [Bool.false_eq_true, if_false, pure, Except.pure,
          Except.ok.injEq, Prod.mk.injEq] at hl
        exact hl.2.symm
      · rw [hie] at hl
        simp only [if_true, pure, Except.pure, Except.ok.injEq,
          Prod.mk.injEq] at hl
        rw [← hl.1] at hln
        exact absurd (List.isEmpty_iff.mp hie) hln
  · simp only [process_equipment_files] at he
    cases hmm : epaths.mapM (equipReadFile efs) with
    | error e => rw [hmm] at he; simp [Bind.bind, Except.bind] at he
    | ok parts =>
      rw [hmm] at he
      simp only [Bind.bind, Except.bind] at he
      cases hie : parts.flatten.isEmpty
      · rw [hie] at he
        simp only [Bool.false_eq_true, if_false, pure, Except.pure,
          Except.ok.injEq, Prod.mk.injEq] at he
        exact he.2.2.symm
      · rw [hie] at he
        simp only [if_true, pure, Except.pure, Except.ok.injEq,
          Prod.mk.injEq] at he
        rw [← he.1] at hen
        exact absurd (List.isEmpty_iff.mp hie) hen

/-- Witness for C8: a one-file link batch and a one-file equipment batch,
each yielding records, append exactly the single batch summary entry. -/
theorem C8_batch_summary_witness :
    [SummaryEntry.batch 1 "link_a.log"] =
      [SummaryEntry.batch (["logs/link_a.log"] : List String).length
        (pyBasename ((["logs/link_a.log"] : List String).getLastD ""))] ∧
    [SummaryEntry.batch 1 "equipment_b.log"] =
      [SummaryEntry.batch (["logs/equipment_b.log"] : List String).length
        (pyBasename ((["logs/equipment_b.log"] : List String).getLastD ""))] :=
  C8_batch_summary ["logs/link_a.log"] ["logs/equipment_b.log"]
    linkFixtureFS equipFixtureFS
    [[("a", JVal.num 1), ("node", JVal.str "X"),
      ("Date", JVal.str "2024-01-01"), ("Time", JVal.str "10:00:00")],
     [("a", JVal.num 2), ("node", JVal.str "X"),
      ("Date", JVal.str "2024-01-01"), ("Time", JVal.str "10:00:00")]]
    [SummaryEntry.batch 1 "link_a.log"]
    [[("b", JVal.num 2),
      ("messageSendTime", JVal.str "2024-01-02T10:20:30.123+07:00"),
      ("Date", JVal.str "2024-01-02"), ("Time", JVal.str "10:20:30")]]
    [Table.mk ["Date", "Time", "b", "messageSendTime"]
      [[("b", JVal.num 2),
        ("messageSendTime", JVal.str "2024-01-02T10:20:30.123+07:00"),
        ("Date", JVal.str "2024-01-02"), ("Time", JVal.str "10:20:30")]]]
    [SummaryEntry.batch 1 "equipment_b.log"]
    rfl (by simp) rfl (by simp)

/-! ### Lemmas about the equipment pagination loop -/

theorem appendRowsCapped_all (t : Nat) :
    ∀ (part : List Json) (tbl : Table) (rc : Nat), rc + part.length ≤ t →
      appendRowsCapped t tbl rc part =
        ({ tbl with rows := tbl.rows ++ part }, rc + part.length) := by
  intro part
  induction part with
  | nil => intro tbl rc h; simp [appendRowsCapped]
  | cons r rest ih =>
    intro tbl rc h
    have hlt : ¬ rc ≥ t := by simp only [List.length_cons] at h; omega
    simp only [appendRowsCapped, hlt, if_false]
    have h2 : rc + 1 + rest.length ≤ t := by
      simp only [List.length_cons] at h; omega
    rw [ih { tbl with rows := tbl.rows ++ [r] } (rc + 1) h2]
    have hn : rc + 1 + rest.length = rc + (r :: rest).length := by
      simp only [List.length_cons]; omega
    rw [hn]
    simp [List.append_assoc]

theorem add_data_to_sheet_fresh (t : Nat) (cols : List String)
    (part : List Json) (h : part.length ≤ t) :
    add_data_to_sheet t cols (Table.mk [] []) 0 part =
      (Table.mk cols part, part.length) := by
  unfold add_data_to_sheet
  simp only [if_pos rfl]
  rw [appendRowsCapped_all t part _ 0 (by omega)]
  simp

theorem equipPaginate_nil (t : Nat) (cols : List String) (fuel : Nat)
    (cur : Table) (rc : Nat) (done : List Table) :
    equipPaginate t cols fuel [] cur rc done = done ++ [cur] := by
  cases fuel <;> simp [equipPaginate]

theorem equipPaginate_fresh (t : Nat) (cols : List String) (fuel : Nat)
    (df : List Json) (done : List Table) (h0 : 0 < t) (hne : df ≠ []) :
    equipPaginate t cols (fuel + 1) df (Table.mk [] []) 0 done =
      equipPaginate t cols fuel (df.drop (min t df.length))
        (Table.mk cols (df.take (min t df.length))) (min t df.length) done := by
  have hief : df.isEmpty = false := by
    cases df
    · exact absurd rfl hne
    · rfl
  have hge : ¬ ((0 : Nat) ≥ t) := by omega
  have hsi : t - 0 = t := by omega
  have htk : (df.take (min t df.length)).length = min t df.length := by
    rw [List.length_take]
    omega
  simp only [equipPaginate, hief, Bool.false_eq_true, if_false, hge, hsi]
  rw [add_data_to_sheet_fresh t cols _ (by rw [htk]; omega)]
  rw [htk]

theorem equipPaginate_rollover (t : Nat) (cols : List String) (fuel : Nat)
    (df : List Json) (cur : Table) (done : List Table) (hne : df ≠ []) :
    equipPaginate t cols (fuel + 1) df cur t done =
      equipPaginate t cols fuel (df.drop (min t df.length))
        (Table.mk cols (df.take (min t df.length))) (min t df.length)
        (done ++ [cur]) := by
  have hief : df.isEmpty = false := by
    cases df
    · exact absurd rfl hne
    · rfl
  have hge : t ≥ t := Nat.le_refl t
  have hsi : t - 0 = t := by omega
  have htk : (df.take (min t df.length)).length = min t df.length := by
    rw [List.length_take]
    omega
  simp only [equipPaginate, hief, Bool.false_eq_true, if_false, hge, if_true, hsi]
  rw [add_data_to_sheet_fresh t cols _ (by rw [htk]; omega)]
  rw [htk]

/-! ### C7: equipment pagination at 2 x threshold + 5 records -/

/-- C7: a batch of exactly `2 * t + 5` flattened equipment records, with
`t` the rows-per-sheet threshold (`5 ≤ t`), paginates into exactly three
tables with row counts `t`, `t` and `5`, each carrying the identical header
row, and the concatenation of the tables' rows in order is the original
record sequence. -/
theorem C7_equipment_pagination (t : Nat) (cols : List String)
    (recs : List Json) (ht : 5 ≤ t) (hlen : recs.length = 2 * t + 5) :
    (equipTables t cols recs).map (fun tb => tb.rows.length) = [t, t, 5] ∧
    (equipTables t cols recs).map Table.header = [cols, cols, cols] ∧
    ((equipTables t cols recs).map Table.rows).flatten = recs := by
  have h0 : 0 < t := by omega
  have hne1 : recs ≠ [] := by
    intro h
    rw [h] at hlen
    simp at hlen
  have l2 : (recs.drop t).length = t + 5 := by
    rw [List.length_drop, hlen]; omega
  have hne2 : recs.drop t ≠ [] := by
    intro h
    rw [h] at l2
    simp at l2
  have l3 : ((recs.drop t).drop t).length = 5 := by
    rw [List.length_drop, l2]; omega
  have hne3 : (recs.drop t).drop t ≠ [] := by
    intro h
    rw [h] at l3
    simp at l3
  have hmin1 : min t recs.length = t := by rw [hlen]; omega
  have hmin2 : min t (recs.drop t).length = t := by rw [l2]; omega
  have hmin3 : min t ((recs.drop t).drop t).length = 5 := by rw [l3]; omega
  have e0 : equipTables t cols recs =
      equipPaginate t cols (2 * t + 5 + 1) recs (Table.mk [] []) 0 [] := by
    rw [equipTables, hlen]
  rw [e0, equipPaginate_fresh t cols (2 * t + 5) recs [] h0 hne1, hmin1]
  have f2 : 2 * t + 5 = 2 * t + 4 + 1 := by omega
  rw [f2, equipPaginate_rollover t cols (2 * t + 4) (recs.drop t) _ _ hne2, hmin2]
  have f3 : 2 * t + 4 = 2 * t + 3 + 1 := by omega
  rw [f3, equipPaginate_rollover t cols (2 * t + 3) ((recs.drop t).drop t) _ _
    hne3, hmin3]
  have hd5 : ((recs.drop t).drop t).drop 5 = [] := by
    apply List.drop_eq_nil_of_le
    rw [l3]
  have ht5 : ((recs.drop t).drop t).take 5 = (recs.drop t).drop t := by
    rw [← l3]
    exact List.take_length _
  rw [hd5, ht5, equipPaginate_nil]
  refine ⟨?_, ?_, ?_⟩
  · simp [List.length_take, hmin1, hmin2, l3]
    omega
  · simp
  · simp only [List.nil_append, List.map_cons, List.map_nil, List.flatten]
    rw [List.append_nil]
    rw [List.take_append_drop, List.take_append_drop]

/-- Witness for C7: fifteen records at threshold 5 paginate into three
sheets of 5, 5 and 5 rows with the same header, preserving order. -/
theorem C7_equipment_pagination_witness :
    (equipTables 5 ["i"] recs15).map (fun tb => tb.rows.length) = [5, 5, 5] ∧
    (equipTables 5 ["i"] recs15).map Table.header = [["i"], ["i"], ["i"]] ∧
    ((equipTables 5 ["i"] recs15).map Table.rows).flatten = recs15 :=
  C7_equipment_pagination 5 ["i"] recs15 (by decide) (by rfl)

end AutoLog
